import Mathlib

/-!
Shallow embedding of the image-compressor batch pipeline (src/index.js),
the variant that takes a configurable target format via the --ext option.

File sizes are modelled in bytes as naturals; the MB conversion
(bytes / 1024*1024) and all size arithmetic use exact rationals standing
for JavaScript numbers.  JavaScript division is modelled by JsNum, which
makes the division-by-zero outcomes (NaN, ±Infinity) explicit.  The
external codec (sharp) and the filesystem are modelled by an environment
of oracles: inputBytes gives the on-disk byte count that fs.statSync
reports for a path, and encode models sharpInstance.toFile followed by
statSync of the output path, returning the written file's on-disk byte
count, or none when the codec or the output write fails.  Console output
is modelled as a list of log events.
-/

namespace ImageCompressor

/-- A JavaScript number restricted to the outcomes this program can
produce: an exact rational, or one of the IEEE special values that
division by zero yields. -/
inductive JsNum
  | nan
  | posInf
  | negInf
  | num (q : ℚ)
deriving DecidableEq, Repr

/-- JavaScript division: `a / b` with `b = 0` giving NaN (when `a = 0`)
or a signed infinity, and exact rational division otherwise. -/
def jsDiv (a b : ℚ) : JsNum :=
  if b = 0 then
    if a = 0 then JsNum.nan else if 0 < a then JsNum.posInf else JsNum.negInf
  else JsNum.num (a / b)

/-- Multiplication by 100 on a JavaScript number; the special values
absorb it, as NaN * 100 = NaN and ±Infinity * 100 = ±Infinity. -/
def jsMul100 : JsNum → JsNum
  | JsNum.nan => JsNum.nan
  | JsNum.posInf => JsNum.posInf
  | JsNum.negInf => JsNum.negInf
  | JsNum.num q => JsNum.num (q * 100)

/-- The percentage computation of the Summary:
`(totalSavedSize / totalOriginalSize) * 100` (src/index.js:284-287),
with no guard against a zero denominator. -/
def totalSpaceSavedPercentage (totalSavedSize totalOriginalSize : ℚ) : JsNum :=
  jsMul100 (jsDiv totalSavedSize totalOriginalSize)

/-- Byte count converted to megabytes, as in getFileSizeInMB:
`stats.size / (1024 * 1024)`. -/
def bytesToMB (n : ℕ) : ℚ :=
  (n : ℚ) / (1024 * 1024)

/-- The recognized image extensions of the discovery regex
`/\.(jpg|jpeg|png|webp)$/i`. -/
def imageExtensions : List String :=
  ["jpg", "jpeg", "png", "webp"]

/-- String suffix test on the underlying character lists. -/
def strEndsWith (s suffix : String) : Bool :=
  suffix.toList.isSuffixOf s.toList

/-- ASCII lowercasing of a string, character by character; non-ASCII
characters are untouched, matching how the case-insensitive regex flag
and toLowerCase act on the ASCII-only patterns of this program. -/
def strToLower (s : String) : String :=
  String.mk (s.toList.map Char.toLower)

/-- The discovery filter predicate: the regex
`/\.(jpg|jpeg|png|webp)$/i.test(file)` holds exactly when the file name,
lowercased, ends in a dot followed by one of the recognized extensions. -/
def matchesImageExt (file : String) : Bool :=
  imageExtensions.any (fun e => strEndsWith (strToLower file) ("." ++ e))

/-- An entry of the source directory as it exists on disk: fs.readdir
reports only the name; whether the entry is a subdirectory is invisible
to the program. -/
structure DirEntry where
  name : String
  isDir : Bool
deriving DecidableEq, Repr

/-- Discovery over a directory listing: `files.filter(...)` applied to
the names returned by fs.readdir (src/index.js:214-217).  The entry kind
is never consulted. -/
def discoveredFiles (entries : List DirEntry) : List String :=
  (entries.map DirEntry.name).filter matchesImageExt

/-- Split a character list at its last dot: `some (before, after)` when
a dot exists, with `after` dot-free, else `none`. -/
def splitAtLastDot : List Char → Option (List Char × List Char)
  | [] => none
  | c :: cs =>
    match splitAtLastDot cs with
    | some (b, a) => some (c :: b, a)
    | none => if c = '.' then some ([], cs) else none

/-- Node's `path.parse(file).name` for a bare file name: the part before
the last dot, except that a name whose only role for its last dot is as
leading character (a dotfile such as ".png") has no extension and is
returned whole. -/
def parseName (file : String) : String :=
  match splitAtLastDot file.toList with
  | none => file
  | some ([], _) => file
  | some (before, _) => String.mk before

/-- Node's `path.join` for the two-segment uses in this program,
modelled as separator concatenation. -/
def pathJoin (a b : String) : String :=
  a ++ "/" ++ b

/-- The destination path of a file:
`path.join(exportDir, parse(file).name + "." + targetExt)`
(src/index.js:249-252). -/
def outputPath (exportDir targetExt file : String) : String :=
  pathJoin exportDir (parseName file ++ "." ++ targetExt)

/-- The encoder configurations the switch statement can select; jpg and
jpeg both select the mozjpeg-mode JPEG encoder. -/
inductive Fmt
  | jpeg
  | webp
  | png
deriving DecidableEq, Repr

/-- The switch on `targetExt.toLowerCase()` (src/index.js:180-193):
jpeg/jpg, webp and png select an encoder; anything else throws the
unsupported-extension error, modelled as `none`. -/
def selectFormat (targetExt : String) : Option Fmt :=
  let t := strToLower targetExt
  if t = "jpeg" then some Fmt.jpeg
  else if t = "jpg" then some Fmt.jpeg
  else if t = "webp" then some Fmt.webp
  else if t = "png" then some Fmt.png
  else none

/-- The external world: statSync byte counts for input paths, and the
codec capability.  `encode fmt quality inputPath outputPath` models
`sharpInstance.toFile(outputPath)` followed by statSync of the output:
the on-disk byte count of the written file, or `none` when the codec
fails or the output cannot be written. -/
structure Env where
  inputBytes : String → ℕ
  encode : Fmt → ℕ → String → String → Option ℕ

/-- The per-file outcome returned by compressImage on success, sizes in
megabytes. -/
structure CompressionResult where
  originalSize : ℚ
  compressedSize : ℚ
  savedSize : ℚ
deriving DecidableEq, Repr

/-- Console output events of the pipeline. -/
inductive LogEvent
  | errorCompressing (inputPath : String)
  | fileInfo (file : String) (originalSize compressedSize savedSize : ℚ)
  | noImagesFound
deriving DecidableEq, Repr

/-- compressImage (src/index.js:169-204): measure the input size, select
the encoder from the target extension (throwing on an unsupported one),
run it, measure the output, and return the sizes; any thrown error is
caught, logged with the input path, and turned into `null`.  The second
component is the console output of the call. -/
def compressImage (env : Env) (inputPath outputPath : String) (quality : ℕ)
    (targetExt : String) : Option CompressionResult × List LogEvent :=
  let originalSize := bytesToMB (env.inputBytes inputPath)
  match selectFormat targetExt with
  | none => (none, [LogEvent.errorCompressing inputPath])
  | some fmt =>
    match env.encode fmt quality inputPath outputPath with
    | none => (none, [LogEvent.errorCompressing inputPath])
    | some outBytes =>
      let compressedSize := bytesToMB outBytes
      let savedSize := originalSize - compressedSize
      (some ⟨originalSize, compressedSize, savedSize⟩, [])

/-- The outcome of compressImage for one discovered file, with the input
and output paths computed as in the loop body (src/index.js:248-261). -/
def fileOutcome (env : Env) (sourceDir exportDir : String) (quality : ℕ)
    (targetExt : String) (file : String) : Option CompressionResult × List LogEvent :=
  compressImage env (pathJoin sourceDir file) (outputPath exportDir targetExt file)
    quality targetExt

/-- The mutable state of the processing loop: the two running totals,
the sequence of values passed to progressBar.update, and the console
log. -/
structure LoopState where
  totalOriginalSize : ℚ
  totalSavedSize : ℚ
  progressUpdates : List ℕ
  log : List LogEvent
deriving DecidableEq, Repr

/-- The loop state before the first iteration. -/
def initState : LoopState :=
  ⟨0, 0, [], []⟩

/-- One iteration of the processing loop (src/index.js:247-275) at entry
`(index, file)`: compress, fold a successful result into the totals and
print its per-file line, and update the progress bar to `index + 1`
whether or not the file succeeded. -/
def processFile (env : Env) (sourceDir exportDir : String) (quality : ℕ)
    (targetExt : String) (st : LoopState) (p : ℕ × String) : LoopState :=
  match fileOutcome env sourceDir exportDir quality targetExt p.2 with
  | (some r, lg) =>
    ⟨st.totalOriginalSize + r.originalSize,
     st.totalSavedSize + r.savedSize,
     st.progressUpdates ++ [p.1 + 1],
     st.log ++ lg ++ [LogEvent.fileInfo p.2 r.originalSize r.compressedSize r.savedSize]⟩
  | (none, lg) =>
    ⟨st.totalOriginalSize,
     st.totalSavedSize,
     st.progressUpdates ++ [p.1 + 1],
     st.log ++ lg⟩

/-- The final Summary block (src/index.js:288-300). -/
structure Summary where
  totalImages : ℕ
  totalOriginalSize : ℚ
  totalSavedSize : ℚ
  spaceSavedPercentage : JsNum
deriving DecidableEq, Repr

/-- The observable outcome of one run of compressImagesInDirectory on a
successfully listed directory. -/
structure DirRunResult where
  noImagesReported : Bool
  exportDirCreated : Bool
  progressUpdates : List ℕ
  log : List LogEvent
  summary : Option Summary
deriving DecidableEq, Repr

/-- compressImagesInDirectory (src/index.js:207-304) after a successful
fs.readdir, whose result is the `files` argument: filter to image names,
return early with the no-images message when none qualify (before
ensureDir), otherwise create the export directory, run the loop over the
enumerated image files, and emit the Summary from the accumulated
totals. -/
def compressImagesInDirectory (env : Env) (sourceDir exportDir : String)
    (quality : ℕ) (targetExt : String) (files : List String) : DirRunResult :=
  let imageFiles := files.filter matchesImageExt
  if imageFiles.length = 0 then
    ⟨true, false, [], [LogEvent.noImagesFound], none⟩
  else
    let final := imageFiles.enum.foldl
      (processFile env sourceDir exportDir quality targetExt) initState
    ⟨false, true, final.progressUpdates, final.log,
     some ⟨imageFiles.length, final.totalOriginalSize, final.totalSavedSize,
           totalSpaceSavedPercentage final.totalSavedSize final.totalOriginalSize⟩⟩

/-- The successful per-file results of a run, in processing order: the
specification-side value the Summary totals are compared against. -/
def successResults (env : Env) (sourceDir exportDir : String) (quality : ℕ)
    (targetExt : String) (files : List String) : List CompressionResult :=
  (files.filter matchesImageExt).filterMap
    (fun f => (fileOutcome env sourceDir exportDir quality targetExt f).1)

/-! Helper lemmas about the embedded definitions. -/

lemma splitAtLastDot_eq_none (e : List Char) (h : ∀ c ∈ e, c ≠ '.') :
    splitAtLastDot e = none := by
  induction e with
  | nil => rfl
  | cons c cs ih =>
    have hc : c ≠ '.' := h c (List.mem_cons_self _ _)
    have hcs : splitAtLastDot cs = none :=
      ih (fun x hx => h x (List.mem_cons_of_mem _ hx))
    simp [splitAtLastDot, hcs, hc]

lemma splitAtLastDot_append (stem e : List Char) (h : ∀ c ∈ e, c ≠ '.') :
    splitAtLastDot (stem ++ '.' :: e) = some (stem, e) := by
  induction stem with
  | nil => simp [splitAtLastDot, splitAtLastDot_eq_none e h]
  | cons c cs ih => simp [splitAtLastDot, ih]

lemma parseName_mk (stem e : List Char) (hs : stem ≠ []) (he : ∀ c ∈ e, c ≠ '.') :
    parseName (String.mk (stem ++ '.' :: e)) = String.mk stem := by
  unfold parseName
  have h1 : (String.mk (stem ++ '.' :: e)).toList = stem ++ '.' :: e := rfl
  rw [h1, splitAtLastDot_append _ _ he]
  cases stem with
  | nil => exact absurd rfl hs
  | cons c cs => rfl

lemma string_eq_of_data (s t : String) (h : s.data = t.data) : s = t := by
  exact congrArg String.mk h

lemma toList_ne_nil_of_ne_empty (s : String) (h : s ≠ "") : s.toList ≠ [] := by
  intro hnil
  apply h
  have : s = String.mk s.toList := rfl
  rw [this, hnil]

lemma parseName_append (stem ext : String) (hs : stem ≠ "")
    (he : ∀ c ∈ ext.toList, c ≠ '.') :
    parseName (stem ++ "." ++ ext) = stem := by
  have h2 : stem ++ "." ++ ext = String.mk (stem.toList ++ '.' :: ext.toList) := by
    apply string_eq_of_data
    rw [String.data_append, String.data_append, List.append_assoc]
    rfl
  rw [h2, parseName_mk _ _ (toList_ne_nil_of_ne_empty stem hs) he]
  rfl

lemma selectFormat_eq_none (targetExt : String)
    (h : strToLower targetExt ∉ imageExtensions) : selectFormat targetExt = none := by
  simp only [imageExtensions, List.mem_cons, List.not_mem_nil, or_false, not_or] at h
  obtain ⟨h1, h2, h3, h4⟩ := h
  simp [selectFormat, h1, h2, h3, h4]

lemma compressImage_fail_eq (env : Env) (ip op : String) (q : ℕ) (ext : String)
    (h : (compressImage env ip op q ext).1 = none) :
    compressImage env ip op q ext = (none, [LogEvent.errorCompressing ip]) := by
  unfold compressImage at h ⊢
  cases hf : selectFormat ext with
  | none => simp [hf]
  | some fmt =>
    cases he : env.encode fmt q ip op with
    | none => simp [hf, he]
    | some n => simp [hf, he] at h

lemma compressImage_success (env : Env) (ip op : String) (q : ℕ) (ext : String)
    (r : CompressionResult) (h : (compressImage env ip op q ext).1 = some r) :
    ∃ fmt outBytes, selectFormat ext = some fmt ∧
      env.encode fmt q ip op = some outBytes ∧
      r = ⟨bytesToMB (env.inputBytes ip), bytesToMB outBytes,
           bytesToMB (env.inputBytes ip) - bytesToMB outBytes⟩ := by
  unfold compressImage at h
  cases hf : selectFormat ext with
  | none => simp [hf] at h
  | some fmt =>
    cases he : env.encode fmt q ip op with
    | none => simp [hf, he] at h
    | some n =>
      refine ⟨fmt, n, rfl, he, ?_⟩
      simp [hf, he] at h
      exact h.symm

lemma foldl_totalOriginalSize (env : Env) (sd ed : String) (q : ℕ) (ext : String) :
    ∀ (l : List (ℕ × String)) (st : LoopState),
      (l.foldl (processFile env sd ed q ext) st).totalOriginalSize =
        st.totalOriginalSize +
          ((l.filterMap (fun p => (fileOutcome env sd ed q ext p.2).1)).map
            CompressionResult.originalSize).sum := by
  intro l
  induction l with
  | nil => intro st; simp
  | cons p l ih =>
    intro st
    rcases hp : fileOutcome env sd ed q ext p.2 with ⟨ro, lg⟩
    cases ro with
    | none => simp [List.foldl_cons, processFile, hp, ih, List.filterMap_cons]
    | some r =>
      simp [List.foldl_cons, processFile, hp, ih, List.filterMap_cons]
      ring

lemma foldl_totalSavedSize (env : Env) (sd ed : String) (q : ℕ) (ext : String) :
    ∀ (l : List (ℕ × String)) (st : LoopState),
      (l.foldl (processFile env sd ed q ext) st).totalSavedSize =
        st.totalSavedSize +
          ((l.filterMap (fun p => (fileOutcome env sd ed q ext p.2).1)).map
            CompressionResult.savedSize).sum := by
  intro l
  induction l with
  | nil => intro st; simp
  | cons p l ih =>
    intro st
    rcases hp : fileOutcome env sd ed q ext p.2 with ⟨ro, lg⟩
    cases ro with
    | none => simp [List.foldl_cons, processFile, hp, ih, List.filterMap_cons]
    | some r =>
      simp [List.foldl_cons, processFile, hp, ih, List.filterMap_cons]
      ring

lemma foldl_progressUpdates (env : Env) (sd ed : String) (q : ℕ) (ext : String) :
    ∀ (l : List (ℕ × String)) (st : LoopState),
      (l.foldl (processFile env sd ed q ext) st).progressUpdates =
        st.progressUpdates ++ l.map (fun p => p.1 + 1) := by
  intro l
  induction l with
  | nil => intro st; simp
  | cons p l ih =>
    intro st
    rcases hp : fileOutcome env sd ed q ext p.2 with ⟨ro, lg⟩
    cases ro with
    | none => simp [List.foldl_cons, processFile, hp, ih]
    | some r => simp [List.foldl_cons, processFile, hp, ih]

lemma filterMap_enumFrom {β : Type} (g : String → Option β) :
    ∀ (n : ℕ) (l : List String),
      (List.enumFrom n l).filterMap (fun p => g p.2) = l.filterMap g := by
  intro n l
  induction l generalizing n with
  | nil => rfl
  | cons a l ih => simp [List.enumFrom, List.filterMap_cons, ih]

lemma map_fst_succ_enumFrom :
    ∀ (n : ℕ) (l : List String),
      (List.enumFrom n l).map (fun p => p.1 + 1) = List.range' (n + 1) l.length := by
  intro n l
  induction l generalizing n with
  | nil => rfl
  | cons a l ih => simp [List.enumFrom, List.range'_succ, ih]

lemma strEndsWith_iff (s suffix : String) :
    strEndsWith s suffix = true ↔ ∃ t : String, s = t ++ suffix := by
  unfold strEndsWith
  rw [List.isSuffixOf_iff_suffix]
  constructor
  · rintro ⟨t, ht⟩
    exact ⟨String.mk t, string_eq_of_data _ _ ht.symm⟩
  · rintro ⟨t, ht⟩
    refine ⟨t.toList, ?_⟩
    rw [ht]
    exact (String.data_append t suffix).symm

lemma strAppend_assoc (a b c : String) : a ++ b ++ c = a ++ (b ++ c) := by
  apply string_eq_of_data
  simp [String.data_append]

lemma progressUpdates_eq (env : Env) (sd ed : String) (q : ℕ) (ext : String)
    (files : List String) :
    (compressImagesInDirectory env sd ed q ext files).progressUpdates =
      List.range' 1 (files.filter matchesImageExt).length := by
  simp only [compressImagesInDirectory]
  by_cases h0 : (files.filter matchesImageExt).length = 0
  · simp [h0]
  · simp only [if_neg h0]
    rw [foldl_progressUpdates]
    show [] ++ _ = _
    rw [List.nil_append,
      show (files.filter matchesImageExt).enum
        = List.enumFrom 0 (files.filter matchesImageExt) from rfl,
      map_fst_succ_enumFrom]

lemma final_totalOriginalSize (env : Env) (sd ed : String) (q : ℕ) (ext : String)
    (files : List String) :
    ((files.filter matchesImageExt).enum.foldl
        (processFile env sd ed q ext) initState).totalOriginalSize =
      ((successResults env sd ed q ext files).map CompressionResult.originalSize).sum := by
  rw [foldl_totalOriginalSize]
  have he : (files.filter matchesImageExt).enum.filterMap
      (fun p => (fileOutcome env sd ed q ext p.2).1) =
        successResults env sd ed q ext files := by
    rw [show (files.filter matchesImageExt).enum
      = List.enumFrom 0 (files.filter matchesImageExt) from rfl]
    exact filterMap_enumFrom (fun f => (fileOutcome env sd ed q ext f).1) 0
      (files.filter matchesImageExt)
  rw [he]
  show (0 : ℚ) + _ = _
  rw [zero_add]

lemma final_totalSavedSize (env : Env) (sd ed : String) (q : ℕ) (ext : String)
    (files : List String) :
    ((files.filter matchesImageExt).enum.foldl
        (processFile env sd ed q ext) initState).totalSavedSize =
      ((successResults env sd ed q ext files).map CompressionResult.savedSize).sum := by
  rw [foldl_totalSavedSize]
  have he : (files.filter matchesImageExt).enum.filterMap
      (fun p => (fileOutcome env sd ed q ext p.2).1) =
        successResults env sd ed q ext files := by
    rw [show (files.filter matchesImageExt).enum
      = List.enumFrom 0 (files.filter matchesImageExt) from rfl]
    exact filterMap_enumFrom (fun f => (fileOutcome env sd ed q ext f).1) 0
      (files.filter matchesImageExt)
  rw [he]
  show (0 : ℚ) + _ = _
  rw [zero_add]

/-! Claim theorems. -/

/-- C1: the Summary's percentage-saved is NOT guarded when the total
original size accumulated over successes is zero.  The code computes
`(totalSavedSize / totalOriginalSize) * 100` unconditionally, which is
the JavaScript NaN when both totals are zero, and a run in which the
single discovered image fails to compress indeed puts NaN in its
Summary.  This refutes the claimed guard and exhibits the failing
input. -/
theorem C1_percentage_nan_on_zero_totals :
    totalSpaceSavedPercentage 0 0 = JsNum.nan ∧
    (compressImagesInDirectory ⟨fun _ => 1048576, fun _ _ _ _ => none⟩
        "src" "out" 60 "webp" ["a.png"]).summary =
      some ⟨1, 0, 0, JsNum.nan⟩ :=
  ⟨by decide, by decide⟩

/-- C2 (counterexample): the claim fails on the discovered dotfile
".png".  Its extension per the discovery filter is "png" and its base
name is empty, so the claimed destination under target format webp would
be "out/.webp"; the code instead produces "out/.png.webp", appending the
target extension rather than replacing the original one. -/
theorem C2_counterexample_dotfile :
    matchesImageExt ".png" = true ∧
    (".png" : String) = "" ++ "." ++ "png" ∧
    outputPath "out" "webp" ".png" = "out/.png.webp" ∧
    outputPath "out" "webp" ".png" ≠ pathJoin "out" ("" ++ "." ++ "webp") := by
  decide

/-- C2 (amended): for every file of the form stem.ext whose stem is
nonempty and whose extension part is dot-free, the destination path is
the export directory joined with the stem followed by the target
format's extension — the original extension is replaced.  Only
leading-dot names such as ".png" escape this and get the target
extension appended. -/
theorem C2_extension_replaced (exportDir targetExt stem ext : String)
    (hs : stem ≠ "") (he : ∀ c ∈ ext.toList, c ≠ '.') :
    outputPath exportDir targetExt (stem ++ "." ++ ext) =
      pathJoin exportDir (stem ++ "." ++ targetExt) := by
  unfold outputPath
  rw [parseName_append stem ext hs he]

theorem C2_extension_replaced_witness :
    ("photo" : String) ≠ "" ∧ (∀ c ∈ ("png" : String).toList, c ≠ '.') ∧
    outputPath "out" "webp" ("photo" ++ "." ++ "png") =
      pathJoin "out" ("photo" ++ "." ++ "webp") :=
  ⟨by decide, by decide,
    C2_extension_replaced "out" "webp" "photo" "png" (by decide) (by decide)⟩

/-- C3: when the target format is outside jpg/jpeg/png/webp,
compressImage returns the failure outcome with the error logged for the
input path, its result does not depend on the encoder oracle at all (the
throw happens before toFile), and a batch run still advances the
progress bar once for every discovered file. -/
theorem C3_unsupported_format_fails_without_encoding
    (env envAlt : Env) (ip op sourceDir exportDir : String) (q : ℕ)
    (targetExt : String) (files : List String)
    (h : strToLower targetExt ∉ imageExtensions) :
    compressImage env ip op q targetExt = (none, [LogEvent.errorCompressing ip]) ∧
    compressImage env ip op q targetExt = compressImage envAlt ip op q targetExt ∧
    (compressImagesInDirectory env sourceDir exportDir q targetExt
        files).progressUpdates.length = (files.filter matchesImageExt).length := by
  have hn := selectFormat_eq_none targetExt h
  have h1 : ∀ e : Env,
      compressImage e ip op q targetExt = (none, [LogEvent.errorCompressing ip]) := by
    intro e
    unfold compressImage
    simp [hn]
  refine ⟨h1 env, (h1 env).trans (h1 envAlt).symm, ?_⟩
  rw [progressUpdates_eq]
  simp

theorem C3_witness :
    strToLower "gif" ∉ imageExtensions ∧
    compressImage ⟨fun _ => 7, fun _ _ _ _ => some 3⟩ "s/a.png" "o/a.gif" 60 "gif" =
      (none, [LogEvent.errorCompressing "s/a.png"]) ∧
    compressImage ⟨fun _ => 7, fun _ _ _ _ => some 3⟩ "s/a.png" "o/a.gif" 60 "gif" =
      compressImage ⟨fun _ => 0, fun _ _ _ _ => none⟩ "s/a.png" "o/a.gif" 60 "gif" ∧
    (compressImagesInDirectory ⟨fun _ => 7, fun _ _ _ _ => some 3⟩ "s" "o" 60 "gif"
        ["a.png", "b.jpg"]).progressUpdates.length =
      (["a.png", "b.jpg"].filter matchesImageExt).length :=
  ⟨by decide,
    C3_unsupported_format_fails_without_encoding
      ⟨fun _ => 7, fun _ _ _ _ => some 3⟩ ⟨fun _ => 0, fun _ _ _ _ => none⟩
      "s/a.png" "o/a.gif" "s" "o" 60 "gif" ["a.png", "b.jpg"] (by decide)⟩

/-- C4: a per-file failure leaves both running totals untouched, appends
exactly the error line carrying the offending input path to the log (no
per-file result line), still advances the progress bar for that file,
and the batch goes on to process every discovered file regardless. -/
theorem C4_failure_logged_skipped_batch_continues
    (env : Env) (sourceDir exportDir : String) (q : ℕ) (targetExt : String)
    (st : LoopState) (idx : ℕ) (file : String) (files : List String)
    (h : (fileOutcome env sourceDir exportDir q targetExt file).1 = none) :
    processFile env sourceDir exportDir q targetExt st (idx, file) =
      ⟨st.totalOriginalSize, st.totalSavedSize,
       st.progressUpdates ++ [idx + 1],
       st.log ++ [LogEvent.errorCompressing (pathJoin sourceDir file)]⟩ ∧
    (compressImagesInDirectory env sourceDir exportDir q targetExt
        files).progressUpdates.length = (files.filter matchesImageExt).length := by
  constructor
  · have hfull : fileOutcome env sourceDir exportDir q targetExt file =
        (none, [LogEvent.errorCompressing (pathJoin sourceDir file)]) :=
      compressImage_fail_eq _ _ _ _ _ h
    simp [processFile, hfull]
  · rw [progressUpdates_eq]
    simp

theorem C4_witness :
    (fileOutcome ⟨fun _ => 5, fun _ _ _ _ => none⟩ "s" "o" 60 "webp" "a.png").1 = none ∧
    (processFile ⟨fun _ => 5, fun _ _ _ _ => none⟩ "s" "o" 60 "webp"
        ⟨3, 4, [1, 2], []⟩ (2, "a.png") =
      ⟨3, 4, [1, 2] ++ [2 + 1], [] ++ [LogEvent.errorCompressing (pathJoin "s" "a.png")]⟩ ∧
     (compressImagesInDirectory ⟨fun _ => 5, fun _ _ _ _ => none⟩ "s" "o" 60 "webp"
        ["a.png", "b.txt"]).progressUpdates.length =
      (["a.png", "b.txt"].filter matchesImageExt).length) :=
  ⟨by decide,
    C4_failure_logged_skipped_batch_continues
      ⟨fun _ => 5, fun _ _ _ _ => none⟩ "s" "o" 60 "webp"
      ⟨3, 4, [1, 2], []⟩ 2 "a.png" ["a.png", "b.txt"] (by decide)⟩

/-- C5: when no directory entry qualifies as an image, the run reports
the distinct no-images message and performs no further work: the export
directory is not created, the progress bar never starts, and no Summary
is produced. -/
theorem C5_no_images_short_circuit (env : Env) (sourceDir exportDir : String)
    (q : ℕ) (targetExt : String) (files : List String)
    (h : files.filter matchesImageExt = []) :
    compressImagesInDirectory env sourceDir exportDir q targetExt files =
      ⟨true, false, [], [LogEvent.noImagesFound], none⟩ := by
  simp [compressImagesInDirectory, h]

theorem C5_witness :
    (["notes.txt", "sub"].filter matchesImageExt = []) ∧
    compressImagesInDirectory ⟨fun _ => 9, fun _ _ _ _ => some 1⟩ "s" "o" 60 "webp"
        ["notes.txt", "sub"] =
      ⟨true, false, [], [LogEvent.noImagesFound], none⟩ :=
  ⟨by decide,
    C5_no_images_short_circuit ⟨fun _ => 9, fun _ _ _ _ => some 1⟩ "s" "o" 60 "webp"
      ["notes.txt", "sub"] (by decide)⟩

/-- C6: whenever at least one image is discovered, the Summary's total
original size is the sum of originalSize over exactly the successful
per-file results, its total saved size is the sum of savedSize over
exactly the successful results, and Total Images is the number of
discovered (attempted) files, not the number of successes. -/
theorem C6_summary_totals_from_successes (env : Env) (sourceDir exportDir : String)
    (q : ℕ) (targetExt : String) (files : List String)
    (h : files.filter matchesImageExt ≠ []) :
    ∃ s : Summary,
      (compressImagesInDirectory env sourceDir exportDir q targetExt files).summary =
        some s ∧
      s.totalImages = (files.filter matchesImageExt).length ∧
      s.totalOriginalSize =
        ((successResults env sourceDir exportDir q targetExt files).map
          CompressionResult.originalSize).sum ∧
      s.totalSavedSize =
        ((successResults env sourceDir exportDir q targetExt files).map
          CompressionResult.savedSize).sum := by
  have h0 : ¬ (files.filter matchesImageExt).length = 0 := by
    simpa [List.length_eq_zero] using h
  simp only [compressImagesInDirectory, if_neg h0]
  exact ⟨_, rfl, rfl,
    final_totalOriginalSize env sourceDir exportDir q targetExt files,
    final_totalSavedSize env sourceDir exportDir q targetExt files⟩

theorem C6_witness :
    (["a.png", "b.txt", "c.jpg"].filter matchesImageExt ≠ []) ∧
    (∃ s : Summary,
      (compressImagesInDirectory ⟨fun _ => 2097152, fun _ _ _ _ => some 1048576⟩
          "s" "o" 60 "webp" ["a.png", "b.txt", "c.jpg"]).summary = some s ∧
      s.totalImages =
        (["a.png", "b.txt", "c.jpg"].filter matchesImageExt).length ∧
      s.totalOriginalSize =
        ((successResults ⟨fun _ => 2097152, fun _ _ _ _ => some 1048576⟩
            "s" "o" 60 "webp" ["a.png", "b.txt", "c.jpg"]).map
          CompressionResult.originalSize).sum ∧
      s.totalSavedSize =
        ((successResults ⟨fun _ => 2097152, fun _ _ _ _ => some 1048576⟩
            "s" "o" 60 "webp" ["a.png", "b.txt", "c.jpg"]).map
          CompressionResult.savedSize).sum) :=
  ⟨by decide,
    C6_summary_totals_from_successes ⟨fun _ => 2097152, fun _ _ _ _ => some 1048576⟩
      "s" "o" 60 "webp" ["a.png", "b.txt", "c.jpg"] (by decide)⟩

/-- C7 (counterexample): discovery filters purely by entry name, so a
subdirectory named like an image — here a directory "screenshots.png" —
is retained by the filter, contradicting the claim that subdirectories
are excluded. -/
theorem C7_counterexample_subdirectory :
    discoveredFiles [⟨"screenshots.png", true⟩] = ["screenshots.png"] ∧
    (DirEntry.mk "screenshots.png" true).isDir = true := by
  decide

/-- C7 (amended): discovery retains exactly the entry names — of files
and subdirectories alike — whose lowercased name ends in a dot followed
by one of jpg/jpeg/png/webp, and the retained list is a sublist of the
directory listing, so its order is preserved; the entry kind is never
consulted, so only name-matching subdirectories slip through. -/
theorem C7_discovery_by_name_only (entries : List DirEntry) (f : String) :
    (f ∈ discoveredFiles entries ↔
      f ∈ entries.map DirEntry.name ∧ matchesImageExt f = true) ∧
    (discoveredFiles entries).Sublist (entries.map DirEntry.name) ∧
    (matchesImageExt f = true ↔
      ∃ stem : String, ∃ e ∈ imageExtensions, strToLower f = stem ++ "." ++ e) := by
  refine ⟨?_, List.filter_sublist _, ?_⟩
  · simp [discoveredFiles, List.mem_filter]
  · unfold matchesImageExt
    rw [List.any_eq_true]
    constructor
    · rintro ⟨e, he, hend⟩
      obtain ⟨t, ht⟩ := (strEndsWith_iff _ _).1 hend
      exact ⟨t, e, he, by rw [ht, strAppend_assoc]⟩
    · rintro ⟨stem, e, he, heq⟩
      exact ⟨e, he, (strEndsWith_iff _ _).2 ⟨stem, by rw [heq, strAppend_assoc]⟩⟩

/-- C8: every successful compressImage result satisfies
savedSize = originalSize − compressedSize, with originalSize the on-disk
byte count of the input converted to MB and compressedSize the on-disk
byte count the encoder wrote for the output converted to MB. -/
theorem C8_saved_size_relation (env : Env) (ip op : String) (q : ℕ) (ext : String)
    (r : CompressionResult) (h : (compressImage env ip op q ext).1 = some r) :
    r.savedSize = r.originalSize - r.compressedSize ∧
    r.originalSize = bytesToMB (env.inputBytes ip) ∧
    ∃ fmt outBytes, selectFormat ext = some fmt ∧
      env.encode fmt q ip op = some outBytes ∧
      r.compressedSize = bytesToMB outBytes := by
  obtain ⟨fmt, n, hf, he, hr⟩ := compressImage_success env ip op q ext r h
  subst hr
  exact ⟨rfl, rfl, fmt, n, hf, he, rfl⟩

theorem C8_witness :
    ((compressImage ⟨fun _ => 100, fun _ _ _ _ => some 150⟩
        "s/a.png" "o/a.webp" 60 "webp").1 =
      some ⟨bytesToMB 100, bytesToMB 150, bytesToMB 100 - bytesToMB 150⟩) ∧
    ((⟨bytesToMB 100, bytesToMB 150, bytesToMB 100 - bytesToMB 150⟩ :
        CompressionResult).savedSize =
      (⟨bytesToMB 100, bytesToMB 150, bytesToMB 100 - bytesToMB 150⟩ :
        CompressionResult).originalSize -
      (⟨bytesToMB 100, bytesToMB 150, bytesToMB 100 - bytesToMB 150⟩ :
        CompressionResult).compressedSize ∧
     (⟨bytesToMB 100, bytesToMB 150, bytesToMB 100 - bytesToMB 150⟩ :
        CompressionResult).originalSize =
      bytesToMB ((⟨fun _ => 100, fun _ _ _ _ => some 150⟩ : Env).inputBytes "s/a.png") ∧
     ∃ fmt outBytes, selectFormat "webp" = some fmt ∧
      (⟨fun _ => 100, fun _ _ _ _ => some 150⟩ : Env).encode fmt 60 "s/a.png" "o/a.webp" =
        some outBytes ∧
      (⟨bytesToMB 100, bytesToMB 150, bytesToMB 100 - bytesToMB 150⟩ :
        CompressionResult).compressedSize = bytesToMB outBytes) ∧
    bytesToMB 100 - bytesToMB 150 < 0 :=
  ⟨rfl,
    C8_saved_size_relation ⟨fun _ => 100, fun _ _ _ _ => some 150⟩
      "s/a.png" "o/a.webp" 60 "webp"
      ⟨bytesToMB 100, bytesToMB 150, bytesToMB 100 - bytesToMB 150⟩ rfl,
    by norm_num [bytesToMB]⟩

/-- C9: the progress bar is updated exactly once per attempted file, to
index + 1, whether the file succeeded or failed: the full sequence of
update values of a run is 1, 2, ..., n for n the number of discovered
image files, so the bar ends at exactly n. -/
theorem C9_progress_once_per_file (env : Env) (sourceDir exportDir : String)
    (q : ℕ) (targetExt : String) (files : List String) :
    (compressImagesInDirectory env sourceDir exportDir q targetExt
        files).progressUpdates =
      List.range' 1 (files.filter matchesImageExt).length ∧
    (compressImagesInDirectory env sourceDir exportDir q targetExt
        files).progressUpdates.length = (files.filter matchesImageExt).length := by
  refine ⟨progressUpdates_eq env sourceDir exportDir q targetExt files, ?_⟩
  rw [progressUpdates_eq]
  simp

/-- C10: whenever at least one image file is discovered, a Summary is
produced — even when every file fails — with Total Images equal to the
attempted count; and when every discovered file fails, both accumulated
totals in that Summary are zero. -/
theorem C10_summary_printed_when_any_discovered (env : Env)
    (sourceDir exportDir : String) (q : ℕ) (targetExt : String)
    (files : List String) (h : files.filter matchesImageExt ≠ []) :
    ∃ s : Summary,
      (compressImagesInDirectory env sourceDir exportDir q targetExt files).summary =
        some s ∧
      s.totalImages = (files.filter matchesImageExt).length ∧
      ((∀ f ∈ files.filter matchesImageExt,
          (fileOutcome env sourceDir exportDir q targetExt f).1 = none) →
        s.totalOriginalSize = 0 ∧ s.totalSavedSize = 0) := by
  have h0 : ¬ (files.filter matchesImageExt).length = 0 := by
    simpa [List.length_eq_zero] using h
  simp only [compressImagesInDirectory, if_neg h0]
  refine ⟨_, rfl, rfl, ?_⟩
  intro hall
  have hnil : successResults env sourceDir exportDir q targetExt files = [] := by
    unfold successResults
    rw [List.filterMap_eq_nil_iff]
    exact hall
  constructor
  · rw [final_totalOriginalSize, hnil]
    simp
  · rw [final_totalSavedSize, hnil]
    simp

theorem C10_witness :
    (["a.png"].filter matchesImageExt ≠ []) ∧
    (∃ s : Summary,
      (compressImagesInDirectory ⟨fun _ => 1048576, fun _ _ _ _ => none⟩
          "s" "o" 60 "webp" ["a.png"]).summary = some s ∧
      s.totalImages = (["a.png"].filter matchesImageExt).length ∧
      ((∀ f ∈ ["a.png"].filter matchesImageExt,
          (fileOutcome ⟨fun _ => 1048576, fun _ _ _ _ => none⟩
            "s" "o" 60 "webp" f).1 = none) →
        s.totalOriginalSize = 0 ∧ s.totalSavedSize = 0)) :=
  ⟨by decide,
    C10_summary_printed_when_any_discovered ⟨fun _ => 1048576, fun _ _ _ _ => none⟩
      "s" "o" 60 "webp" ["a.png"] (by decide)⟩

end ImageCompressor
